import Mathlib

/-!
Verification of the semacode DataMatrix encoder wrapper
(`ext/semacode.c`, `ext/semacode.h`).

The C code is shallowly embedded as follows.

* A C heap buffer (`char *`) is modelled as a `Buf`: an address (`Nat`)
  together with its contents (a list).  A null pointer is `none`, a
  non-null pointer is `some buf`.  Freed memory keeps its last contents
  in the model; the addresses that `free` is called on (with a non-null
  argument — `free(NULL)` is a no-op in C) are logged in order, so that
  leak / double-free properties are statements about the log.
* The `semacode_t` struct of `semacode.h` is `CSemacode`; machine `int`
  fields are `Int`.
* Ruby strings are modelled by their byte contents as `List Char`.
* The external encoder `iec16022init` / `iec16022ecc200` (declared in
  `iec16022ecc200.h`, not part of the sources here) is passed in as a
  pair of oracle functions whose shape follows the spec's contract for
  the external encode primitive.
* A C operation that is undefined behaviour (dereferencing a null
  pointer, `rb_str_new2(NULL)`) is modelled as `Except.error ()`.
-/

namespace Semacode

/-- A heap buffer: its address and its contents.  `Option (Buf α)` models a
possibly-null `α *` pointer. -/
structure Buf (α : Type) where
  addr : Nat
  val : List α
deriving DecidableEq

/-- The `semacode_t` struct from `semacode.h`:
`int width; int height; int raw_encoded_length; int symbol_capacity;
int ecc_bytes; char *encoding; char *data;`.
`data` holds one byte per module (truthiness = module set), `encoding`
holds the codeword/encoding string. -/
structure CSemacode where
  width : Int
  height : Int
  raw_encoded_length : Int
  symbol_capacity : Int
  ecc_bytes : Int
  encoding : Option (Buf Char)
  data : Option (Buf Nat)
deriving DecidableEq

/-- The all-zero struct: what `semacode_allocate` produces
(`Data_Make_Struct` zero-fills the freshly allocated `semacode_t`),
and what `bzero(semacode, sizeof(semacode_t))` resets the struct to. -/
def zeroSemacode : CSemacode :=
  { width := 0, height := 0, raw_encoded_length := 0, symbol_capacity := 0,
    ecc_bytes := 0, encoding := none, data := none }

/-- Addresses freed by `free(p)` on a possibly-null pointer: freeing a
null pointer is a no-op, freeing a non-null pointer logs its address. -/
def freeLog {α : Type} : Option (Buf α) → List Nat
  | none => []
  | some b => [b.addr]

/-! ## The view builders (`semacode_grid`, `semacode_to_s`) -/

/-- One row of the boolean grid: the inner loop
`for (x = 0; x < w; x++) rb_ary_push(ary, semacode->data[y*w+x] ? Qtrue : Qfalse)`.
Out-of-range reads (impossible for a well-formed encoded buffer of
length `w*h`) default to byte `0`. -/
def gridRow (data : List Nat) (w y : Nat) : List Bool :=
  (List.range w).map fun x => decide (data.getD (y * w + x) 0 ≠ 0)

/-- The outer loop of `semacode_grid`, counting `y` down:
`for (y = h - 1; y >= 0; y--) rb_ary_push(ret, row y)`.
`gridAux data w h` is the list of rows for `y = h-1, h-2, ..., 0`. -/
def gridAux (data : List Nat) (w : Nat) : Nat → List (List Bool)
  | 0 => []
  | y + 1 => gridRow data w y :: gridAux data w y

/-- `semacode_grid` (lines 146-167): builds the row array from
`semacode->width`, `semacode->height` and `semacode->data`, with no null
check on `data`.  The loops run only for non-negative indices, so a
non-positive `width` or `height` yields no iterations (`Int.toNat`); the
null buffer is dereferenced — undefined behaviour, `Except.error ()` —
exactly when both dimensions are at least 1. -/
def semacode_grid (s : CSemacode) : Except Unit (List (List Bool)) :=
  match s.data with
  | some b => Except.ok (gridAux b.val s.width.toNat s.height.toNat)
  | none =>
    if 1 ≤ s.width ∧ 1 ≤ s.height then Except.error ()
    else Except.ok (gridAux [] s.width.toNat s.height.toNat)

/-- One row of the bit string: the inner loop of `semacode_to_s`,
`rb_str_cat(str, data[y*w+x] ? "1" : "0", 1)`. -/
def rowChars (data : List Nat) (w y : Nat) : List Char :=
  (List.range w).map fun x => if data.getD (y * w + x) 0 ≠ 0 then '1' else '0'

/-- The outer loop of `semacode_to_s`, counting `y` down: each row's
characters followed by one `','` (`rb_str_cat(str, ",", 1)` after the
inner loop, including after the last row). -/
def toSAux (data : List Nat) (w : Nat) : Nat → List Char
  | 0 => []
  | y + 1 => rowChars data w y ++ ',' :: toSAux data w y

/-- `semacode_to_s` (lines 182-211): returns `Qnil` (here `none`) when
the store's `data` is null, otherwise the comma-separated bit string
built top row (`y = h-1`) first. -/
def semacode_to_s (s : CSemacode) : Option (List Char) :=
  match s.data with
  | none => none
  | some b => some (toSAux b.val s.width.toNat s.height.toNat)

/-! ## Accessors -/

/-- `semacode_data` / `to_a` / `data` (lines 259-269): `Qnil` when `data`
is null, otherwise `semacode_grid`.  The grid call cannot hit the null
dereference because of the guard, hence `Except.toOption` loses nothing. -/
def semacode_data (s : CSemacode) : Option (List (List Bool)) :=
  match s.data with
  | none => none
  | some _ => (semacode_grid s).toOption

/-- `rb_str_new2` builds a Ruby string from a NUL-terminated C string;
its argument must be non-null (it takes `strlen` of it), so a null
argument is undefined behaviour. -/
def rb_str_new2 : Option (List Char) → Except Unit (List Char)
  | none => Except.error ()
  | some cs => Except.ok cs

/-- `semacode_encoded` / `encoding` (lines 274-281):
`rb_str_new2(semacode->encoding)` with no null check. -/
def semacode_encoded (s : CSemacode) : Except Unit (List Char) :=
  rb_str_new2 (s.encoding.map Buf.val)

/-- `semacode_width` (lines 286-293). -/
def semacode_width (s : CSemacode) : Int := s.width

/-- `semacode_height` (lines 298-305). -/
def semacode_height (s : CSemacode) : Int := s.height

/-- `semacode_length` / `size` (lines 311-318): `height * width`. -/
def semacode_length (s : CSemacode) : Int := s.height * s.width

/-- `semacode_raw_encoded_length` (lines 325-332). -/
def semacode_raw_encoded_length (s : CSemacode) : Int := s.raw_encoded_length

/-- `semacode_symbol_size` (lines 340-347). -/
def semacode_symbol_size (s : CSemacode) : Int := s.symbol_capacity

/-- `semacode_ecc_bytes` (lines 353-360). -/
def semacode_ecc_bytes (s : CSemacode) : Int := s.ecc_bytes

instance {ε α : Type} [DecidableEq ε] [DecidableEq α] :
    DecidableEq (Except ε α) := fun a b =>
  match a, b with
  | Except.error e, Except.error f =>
    if h : e = f then Decidable.isTrue (by rw [h])
    else Decidable.isFalse (by intro hc; cases hc; exact h rfl)
  | Except.error _, Except.ok _ => Decidable.isFalse (by intro hc; cases hc)
  | Except.ok _, Except.error _ => Decidable.isFalse (by intro hc; cases hc)
  | Except.ok x, Except.ok y =>
    if h : x = y then Decidable.isTrue (by rw [h])
    else Decidable.isFalse (by intro hc; cases hc; exact h rfl)

/-! ## The external encode primitive (oracles)

`iec16022init` and `iec16022ecc200` are declared in `iec16022ecc200.h`
and are not among the sources; they are the spec's "external encode
primitive" collaborator.  They are modelled from the spec's contract as
oracle parameters. -/

/-- Modelled from the spec: the success result of the external encode
primitive `iec16022ecc200` — the placed bits buffer, final dimensions,
the codeword/encoding buffer, `rawEncodedLength`, `symbolCapacity` and
`eccBytes`.  The two buffers are freshly allocated by the primitive. -/
structure EccResult where
  width : Int
  height : Int
  dataBuf : Buf Nat
  encodingBuf : Buf Char
  raw_encoded_length : Int
  symbol_capacity : Int
  ecc_bytes : Int
deriving DecidableEq

/-- Modelled from the spec: `iec16022init(&width, &height, message)` —
the dimension pre-selection pass, choosing a (width, height) for the
message. -/
def InitOracle : Type := List Char → Int × Int

/-- Modelled from the spec: `iec16022ecc200(&width, &height, &encoding,
message_length, message, &raw, &capacity, &ecc)` — takes the width and
height hints, the payload length and the payload, and either succeeds
with an `EccResult` or fails (returns `NULL`, leaving the out-parameters
untouched). -/
def EccOracle : Type := Int → Int → Int → List Char → Option EccResult

/-! ## `encode_string` and the Ruby-level lifecycle operations -/

/-- Everything observable about one `encode_string` call. -/
structure EncodeStringResult where
  /-- `true` when the function returned `NULL` (the early-out on bad
  input); otherwise it returns the store pointer itself. -/
  retNull : Bool
  /-- The store's contents after the call. -/
  store : CSemacode
  /-- The caller's message buffer after the call (`strcat` appends to it
  in place). -/
  message : List Char
  /-- Addresses freed during the call, in order. -/
  freed : List Nat
  /-- The arguments `(width_hint, height_hint, message_length, message)`
  passed to `iec16022ecc200`, or `none` if the call was never reached. -/
  eccCall : Option (Int × Int × Int × List Char)
deriving DecidableEq

/-- `encode_string` (lines 38-75).  Steps, in source order:
returns `NULL` when `message_length < 1` (or a null store/message, not
representable here); frees `data` then `encoding` when non-null;
`bzero(semacode, sizeof(semacode_t))` (the full struct);
`strcat(message, " "); message_length++`; `iec16022init` writes the
width/height fields; `iec16022ecc200` either fills everything in or
fails, in which case `data` is assigned the null result and the other
out-parameters keep their zeroed/hint values.  The store pointer is
returned whether or not the external encode succeeded. -/
def encode_string (init : InitOracle) (ecc : EccOracle)
    (semacode : CSemacode) (message_length : Int) (message : List Char) :
    EncodeStringResult :=
  if message_length < 1 then
    { retNull := true, store := semacode, message := message, freed := [],
      eccCall := none }
  else
    let f1 := freeLog semacode.data
    let f2 := freeLog semacode.encoding
    let message := message ++ [' ']
    let message_length := message_length + 1
    let wh := init message
    let s1 : CSemacode := { zeroSemacode with width := wh.1, height := wh.2 }
    match ecc wh.1 wh.2 message_length message with
    | none =>
      { retNull := false
        store := { s1 with data := none }
        message := message
        freed := f1 ++ f2
        eccCall := some (wh.1, wh.2, message_length, message) }
    | some r =>
      { retNull := false
        store := { width := r.width, height := r.height,
                   raw_encoded_length := r.raw_encoded_length,
                   symbol_capacity := r.symbol_capacity,
                   ecc_bytes := r.ecc_bytes,
                   encoding := some r.encodingBuf,
                   data := some r.dataBuf }
        message := message
        freed := f1 ++ f2
        eccCall := some (wh.1, wh.2, message_length, message) }

/-- Everything observable about one `semacode_encode` call. -/
structure SemacodeEncodeResult where
  /-- The store's contents after the call. -/
  store : CSemacode
  /-- The caller's message buffer after the call. -/
  message : List Char
  /-- Addresses freed during the call, in order. -/
  freed : List Nat
  /-- `true` when `DATA_PTR(self)` was set to `NULL` because
  `encode_string` returned `NULL`. -/
  dataPtrNull : Bool
  /-- The value returned to Ruby: `semacode_grid(semacode)`. -/
  grid : Except Unit (List (List Bool))
  /-- Arguments passed to `iec16022ecc200`, if the call was reached. -/
  eccCall : Option (Int × Int × Int × List Char)

/-- `semacode_encode` (lines 226-246).  In source order: frees
`semacode->data` when non-null — the following statement
`semacode->data == NULL;` is a comparison with no effect (not an
assignment), so the stale pointer stays in the struct; then calls
`encode_string` with `RSTRING_LEN(message)` and the string's byte
buffer; assigns the result to `DATA_PTR(self)`; returns
`semacode_grid(semacode)`. -/
def semacode_encode (init : InitOracle) (ecc : EccOracle)
    (semacode : CSemacode) (message : List Char) : SemacodeEncodeResult :=
  let f0 := freeLog semacode.data
  let es := encode_string init ecc semacode (message.length : Int) message
  { store := es.store
    message := es.message
    freed := f0 ++ es.freed
    dataPtrNull := es.retNull
    grid := semacode_grid es.store
    eccCall := es.eccCall }

/-- `semacode_init` (lines 120-132): `initialize` just calls
`encode_string` on the freshly allocated store with
`RSTRING_LEN(message)` and the string's byte buffer, and returns
`self`. -/
def semacode_init (init : InitOracle) (ecc : EccOracle)
    (semacode : CSemacode) (message : List Char) : EncodeStringResult :=
  encode_string init ecc semacode (message.length : Int) message

/-- `semacode_free` (lines 88-99), the GC teardown, on a possibly-null
store pointer (address paired with contents).  In source order, for a
non-null store: the braceless `if(semacode->data != NULL)` guards only
`free(semacode->encoding)` (the indentation is misleading);
`free(semacode->data)` is unconditional; `bzero(semacode,
sizeof(semacode))` zeroes `sizeof(semacode_t *)` = 8 bytes — only the
`width` and `height` fields (64-bit model) — not the whole struct; then
`free(semacode)` releases the struct itself.  Returns the struct's last
contents (the memory is freed but the model keeps what was written) and
the freed addresses in order. -/
def semacode_free : Option (Nat × CSemacode) → Option CSemacode × List Nat
  | none => (none, [])
  | some (selfAddr, s) =>
    let l1 := if s.data.isSome then freeLog s.encoding else []
    let l2 := freeLog s.data
    (some { s with width := 0, height := 0 }, l1 ++ l2 ++ [selfAddr])

/-! ## Concrete fixtures used to evaluate the model -/

/-- A concrete dimension pre-selection oracle: always (2, 2). -/
def cInit : InitOracle := fun _ => (2, 2)

/-- A concrete external encoder that always fails (returns `NULL`). -/
def failEcc : EccOracle := fun _ _ _ _ => none

/-- A concrete external encoder that succeeds with a 2×2 bits buffer at
address 1 and a codeword buffer at address 2. -/
def okEcc : EccOracle := fun w h _ _ =>
  some { width := w, height := h, dataBuf := ⟨1, [1, 0, 0, 1]⟩,
         encodingBuf := ⟨2, ['E']⟩, raw_encoded_length := 2,
         symbol_capacity := 3, ecc_bytes := 5 }

/-- An encoded store: exactly what `encode` with `okEcc` produces from
the empty store — bits buffer at address 1, codewords at address 2. -/
def storeA : CSemacode :=
  { width := 2, height := 2, raw_encoded_length := 2, symbol_capacity := 3,
    ecc_bytes := 5, encoding := some ⟨2, ['E']⟩, data := some ⟨1, [1, 0, 0, 1]⟩ }

/-- A store whose `data` pointer is null while its `encoding` buffer
(address 5) is still owned; used to evaluate `semacode_free`. -/
def leakStore : CSemacode :=
  { width := 2, height := 2, raw_encoded_length := 2, symbol_capacity := 3,
    ecc_bytes := 5, encoding := some ⟨5, ['E']⟩, data := none }

/-! ## Helper lemmas about the view builders -/

theorem gridRow_length (data : List Nat) (w y : Nat) :
    (gridRow data w y).length = w := by
  simp [gridRow]

theorem gridRow_getD (data : List Nat) (w y c : Nat) (hc : c < w) :
    (gridRow data w y).getD c false = decide (data.getD (y * w + c) 0 ≠ 0) := by
  have hlen : c < (gridRow data w y).length := by rw [gridRow_length]; exact hc
  rw [List.getD_eq_getElem _ _ hlen]
  simp [gridRow]

theorem gridAux_length (data : List Nat) (w : Nat) :
    ∀ h, (gridAux data w h).length = h
  | 0 => rfl
  | h + 1 => by simp [gridAux, gridAux_length data w h]

theorem gridAux_getD (data : List Nat) (w : Nat) :
    ∀ h r, r < h → (gridAux data w h).getD r [] = gridRow data w (h - 1 - r)
  | h + 1, 0, _ => by simp [gridAux]
  | h + 1, r + 1, hr => by
    have hr' : r < h := by omega
    have harg : h + 1 - 1 - (r + 1) = h - 1 - r := by omega
    rw [harg, gridAux, List.getD_cons_succ, gridAux_getD data w h r hr']

theorem rowChars_length (data : List Nat) (w y : Nat) :
    (rowChars data w y).length = w := by
  simp [rowChars]

theorem rowChars_getD (data : List Nat) (w y c : Nat) (d : Char) (hc : c < w) :
    (rowChars data w y).getD c d =
      if data.getD (y * w + c) 0 ≠ 0 then '1' else '0' := by
  have hlen : c < (rowChars data w y).length := by rw [rowChars_length]; exact hc
  rw [List.getD_eq_getElem _ _ hlen]
  simp [rowChars]

theorem toSAux_cons (data : List Nat) (w y : Nat) :
    toSAux data w (y + 1) = (rowChars data w y ++ [',']) ++ toSAux data w y := by
  simp [toSAux]

theorem toSAux_length (data : List Nat) (w : Nat) :
    ∀ h, (toSAux data w h).length = h * (w + 1)
  | 0 => by simp [toSAux]
  | h + 1 => by
    rw [toSAux_cons, List.length_append, List.length_append,
      rowChars_length, toSAux_length data w h]
    simp [Nat.succ_mul]
    omega

theorem toSAux_getD (data : List Nat) (w : Nat) (d : Char) :
    ∀ h r c, r < h → c < w + 1 →
      (toSAux data w h).getD (r * (w + 1) + c) d =
        (rowChars data w (h - 1 - r) ++ [',']).getD c d
  | h + 1, 0, c, _, hc => by
    rw [toSAux_cons, Nat.zero_mul, Nat.zero_add]
    rw [List.getD_append _ _ _ _
      (by rw [List.length_append, rowChars_length]; simpa using hc)]
    simp
  | h + 1, r + 1, c, hr, hc => by
    have hr' : r < h := by omega
    have harg : h + 1 - 1 - (r + 1) = h - 1 - r := by omega
    have hlen : (rowChars data w h ++ [',']).length = w + 1 := by
      rw [List.length_append, rowChars_length]; rfl
    have hidx : (r + 1) * (w + 1) + c = (w + 1) + (r * (w + 1) + c) := by ring
    rw [harg, toSAux_cons, hidx]
    rw [List.getD_append_right _ _ _ _ (by rw [hlen]; omega)]
    rw [hlen, Nat.add_sub_cancel_left]
    exact toSAux_getD data w d h r c hr' hc

/-! ## The claims -/

/-- Claim C1 (evaluation of the code at the failing input): encoding a
first payload into the empty store installs the bits buffer at address 1
and the codewords buffer at address 2 and frees nothing; re-encoding
then frees the bits buffer at address 1 twice — once in
`semacode_encode` and once more in `encode_string`, because the
statement `semacode->data == NULL;` is an effect-free comparison instead
of an assignment, so the stale pointer is still seen by `encode_string`.
The claim that each previous buffer is released exactly once is
therefore violated by the code (a double free of the bits buffer). -/
theorem C1_reencode_double_free :
    (semacode_encode cInit okEcc zeroSemacode ['a']).store = storeA ∧
    (semacode_encode cInit okEcc zeroSemacode ['a']).freed = [] ∧
    (semacode_encode cInit okEcc storeA ['b']).freed = [1, 1, 2] ∧
    (semacode_encode cInit okEcc storeA ['b']).freed.count 1 = 2 := by
  decide

/-- Claim C2 (counterexample): for a previously-encoded store, encoding
a zero-length payload frees the bits buffer (address 1) before
`encode_string`'s validation rejects the input — the claim that no
buffer is freed or replaced before the validation rejects is false. -/
theorem C2_counterexample :
    (semacode_encode cInit failEcc storeA []).freed = [1] ∧
    (semacode_encode cInit failEcc storeA []).freed ≠ [] := by
  decide

/-- Claim C2 (amended): for every store in the empty state (null `data`)
and every zero-length payload, the validation in `encode_string` rejects
the input (it returns `NULL`, observable as `DATA_PTR(self)` being set
to null), nothing is freed, and the store and the caller's payload
buffer are unchanged.  For a previously-encoded store the bits buffer is
freed before the validation runs (see the counterexample). -/
theorem C2_empty_store_invalid_input (init : InitOracle) (ecc : EccOracle)
    (s : CSemacode) (msg : List Char)
    (hdata : s.data = none) (hmsg : msg.length = 0) :
    (semacode_encode init ecc s msg).store = s ∧
    (semacode_encode init ecc s msg).freed = [] ∧
    (semacode_encode init ecc s msg).message = msg ∧
    (semacode_encode init ecc s msg).dataPtrNull = true := by
  have h1 : (msg.length : Int) < 1 := by rw [hmsg]; norm_num
  refine ⟨?_, ?_, ?_, ?_⟩ <;>
    simp [semacode_encode, encode_string, freeLog, hdata, h1]

/-- Witness for the amended claim C2 at the empty store and the empty
payload. -/
theorem C2_empty_store_invalid_input_witness :
    (zeroSemacode.data = none ∧ ([] : List Char).length = 0) ∧
    ((semacode_encode cInit failEcc zeroSemacode []).store = zeroSemacode ∧
      (semacode_encode cInit failEcc zeroSemacode []).freed = [] ∧
      (semacode_encode cInit failEcc zeroSemacode []).message = [] ∧
      (semacode_encode cInit failEcc zeroSemacode []).dataPtrNull = true) :=
  ⟨⟨rfl, rfl⟩, C2_empty_store_invalid_input cInit failEcc zeroSemacode [] rfl rfl⟩

/-- Claim C3 (evaluation of the code at the failing input): destroying a
store that owns only its codeword buffer (address 5, with `data` null)
frees nothing but the struct itself (address 9): the codeword buffer is
leaked, because the braceless `if(semacode->data != NULL)` guards the
`free(semacode->encoding)` call.  The struct's metadata and buffer
pointers survive the `bzero`, which zeroes only `sizeof(semacode_t *)`
bytes (the `width` and `height` fields), so the state is not reset to
empty.  And destroying again immediately frees the struct address 9 a
second time — a double free, not a no-op. -/
theorem C3_destroy_leak_eval :
    (semacode_free (some (9, leakStore))).2 = [9] ∧
    ¬ 5 ∈ (semacode_free (some (9, leakStore))).2 ∧
    (semacode_free (some (9, leakStore))).1 =
      some { leakStore with width := 0, height := 0 } ∧
    (semacode_free ((semacode_free (some (9, leakStore))).1.map
      fun s => (9, s))).2 = [9] := by
  decide

/-- Claim C4 (counterexample): on the empty store the `encoding`
accessor passes the null `encoding` pointer to `rb_str_new2`, which
takes `strlen` of it — undefined behaviour (a crash), not an
absent/empty value. -/
theorem C4_counterexample :
    semacode_encoded zeroSemacode = Except.error () := rfl

/-- Claim C4 (amended): on the empty store, the `width`, `height`,
`length`, `raw_encoded_length`, `symbol_size` and `ecc_bytes` accessors
all return 0, and the grid (`data`/`to_a`) and bit-string (`to_s`)
accessors return nil — none of them crashes; but the `encoding`
accessor is a hard failure (see the counterexample). -/
theorem C4_empty_accessors :
    semacode_width zeroSemacode = 0 ∧
    semacode_height zeroSemacode = 0 ∧
    semacode_length zeroSemacode = 0 ∧
    semacode_raw_encoded_length zeroSemacode = 0 ∧
    semacode_symbol_size zeroSemacode = 0 ∧
    semacode_ecc_bytes zeroSemacode = 0 ∧
    semacode_data zeroSemacode = none ∧
    semacode_to_s zeroSemacode = none := by
  decide

/-- Claim C5 (counterexample): when the external encoder fails,
`encode_string` does not fail with `EncodingFailed` — it returns the
store pointer exactly as on success (`retNull = false`), with the bits
and codeword buffers both left null. -/
theorem C5_counterexample :
    (encode_string cInit failEcc storeA 2 ['a', 'b']).retNull = false ∧
    (encode_string cInit failEcc storeA 2 ['a', 'b']).store.data = none ∧
    (encode_string cInit failEcc storeA 2 ['a', 'b']).store.encoding = none := by
  decide

/-- Claim C5 (amended): for every store and valid payload for which the
external encode primitive fails, `encode_string` leaves both buffers
absent and the codeword metadata zeroed (the prior state is wiped by the
`bzero`; only `width` and `height` keep the dimension pre-pass hint
values) — not the stale previously-encoded state; but the operation
does not fail with `EncodingFailed`: it returns the store as if
successful, and the failure is not observable at the call boundary. -/
theorem C5_external_failure (init : InitOracle) (ecc : EccOracle)
    (s : CSemacode) (len : Int) (msg : List Char)
    (hlen : 1 ≤ len)
    (hfail : ecc (init (msg ++ [' '])).1 (init (msg ++ [' '])).2 (len + 1)
      (msg ++ [' ']) = none) :
    (encode_string init ecc s len msg).retNull = false ∧
    (encode_string init ecc s len msg).store.data = none ∧
    (encode_string init ecc s len msg).store.encoding = none ∧
    (encode_string init ecc s len msg).store.raw_encoded_length = 0 ∧
    (encode_string init ecc s len msg).store.symbol_capacity = 0 ∧
    (encode_string init ecc s len msg).store.ecc_bytes = 0 ∧
    (encode_string init ecc s len msg).store.width = (init (msg ++ [' '])).1 ∧
    (encode_string init ecc s len msg).store.height = (init (msg ++ [' '])).2 := by
  have h1 : ¬ (len < 1) := by omega
  refine ⟨?_, ?_, ?_, ?_, ?_, ?_, ?_, ?_⟩ <;>
    simp [encode_string, h1, hfail, zeroSemacode]

/-- Witness for the amended claim C5 at a concrete failing oracle. -/
theorem C5_external_failure_witness :
    ((1 : Int) ≤ 2 ∧
      failEcc (cInit (['a', 'b'] ++ [' '])).1 (cInit (['a', 'b'] ++ [' '])).2
        (2 + 1) (['a', 'b'] ++ [' ']) = none) ∧
    ((encode_string cInit failEcc storeA 2 ['a', 'b']).retNull = false ∧
      (encode_string cInit failEcc storeA 2 ['a', 'b']).store.data = none ∧
      (encode_string cInit failEcc storeA 2 ['a', 'b']).store.encoding = none ∧
      (encode_string cInit failEcc storeA 2 ['a', 'b']).store.raw_encoded_length = 0 ∧
      (encode_string cInit failEcc storeA 2 ['a', 'b']).store.symbol_capacity = 0 ∧
      (encode_string cInit failEcc storeA 2 ['a', 'b']).store.ecc_bytes = 0 ∧
      (encode_string cInit failEcc storeA 2 ['a', 'b']).store.width =
        (cInit (['a', 'b'] ++ [' '])).1 ∧
      (encode_string cInit failEcc storeA 2 ['a', 'b']).store.height =
        (cInit (['a', 'b'] ++ [' '])).2) :=
  ⟨⟨by decide, rfl⟩,
    C5_external_failure cInit failEcc storeA 2 ['a', 'b'] (by decide) rfl⟩

/-- Claim C6: for every non-empty payload of length L, `encode` appends
exactly one trailing space to the payload before invoking the external
encode primitive and passes L + 1 as the payload length — the external
encoder is called with message `payload ++ " "` and length
`payload.length + 1` (and the width/height hints chosen by the
dimension pre-pass on the padded payload). -/
theorem C6_padding (init : InitOracle) (ecc : EccOracle)
    (s : CSemacode) (msg : List Char) (hmsg : 1 ≤ msg.length) :
    (semacode_encode init ecc s msg).eccCall =
      some ((init (msg ++ [' '])).1, (init (msg ++ [' '])).2,
        (msg.length : Int) + 1, msg ++ [' ']) := by
  have h1 : ¬ ((msg.length : Int) < 1) := by
    simp only [not_lt]
    exact_mod_cast hmsg
  cases hecc : ecc (init (msg ++ [' '])).1 (init (msg ++ [' '])).2
      ((msg.length : Int) + 1) (msg ++ [' ']) with
  | none => simp [semacode_encode, encode_string, h1, hecc]
  | some r => simp [semacode_encode, encode_string, h1, hecc]

/-- Witness for claim C6 at a concrete one-character payload. -/
theorem C6_padding_witness :
    1 ≤ (['a'] : List Char).length ∧
    (semacode_encode cInit okEcc zeroSemacode ['a']).eccCall =
      some ((cInit (['a'] ++ [' '])).1, (cInit (['a'] ++ [' '])).2,
        ((['a'] : List Char).length : Int) + 1, ['a'] ++ [' ']) :=
  ⟨by decide, C6_padding cInit okEcc zeroSemacode ['a'] (by decide)⟩

/-- Claim C7: for every encoded symbol (bits buffer present, of length
width*height), the grid accessor yields exactly `height` rows, each of
length `width`, and the row at output position r holds the booleans of
internal buffer row `height-1-r` (row 0 of the output is the topmost
row; internal index = row*width + col). -/
theorem C7_grid (s : CSemacode) (b : Buf Nat) (g : List (List Bool))
    (hb : s.data = some b)
    (hlen : b.val.length = s.width.toNat * s.height.toNat)
    (hg : semacode_data s = some g) :
    g.length = s.height.toNat ∧
    (∀ r, r < s.height.toNat → (g.getD r []).length = s.width.toNat) ∧
    (∀ r c, r < s.height.toNat → c < s.width.toNat →
      ((g.getD r []).getD c false = true ↔
        b.val.getD ((s.height.toNat - 1 - r) * s.width.toNat + c) 0 ≠ 0)) := by
  have hgeq : g = gridAux b.val s.width.toNat s.height.toNat := by
    simp [semacode_data, semacode_grid, hb, Except.toOption] at hg
    exact hg.symm
  subst hgeq
  refine ⟨gridAux_length _ _ _, fun r hr => ?_, fun r c hr hc => ?_⟩
  · rw [gridAux_getD _ _ _ r hr, gridRow_length]
  · rw [gridAux_getD _ _ _ r hr, gridRow_getD _ _ _ c hc]
    simp

/-- Witness for claim C7 at the concrete encoded store `storeA`
(2×2, bits buffer bytes [1,0,0,1]): the grid is
[[false,true],[true,false]] and cell (0,1) reflects internal buffer
index (2-1-0)*2+1 = 3. -/
theorem C7_grid_witness :
    semacode_data storeA = some [[false, true], [true, false]] ∧
    ([[false, true], [true, false]] : List (List Bool)).length =
      storeA.height.toNat ∧
    ((([[false, true], [true, false]] : List (List Bool)).getD 0 []).getD 1
        false = true ↔
      ([1, 0, 0, 1] : List Nat).getD
        ((storeA.height.toNat - 1 - 0) * storeA.width.toNat + 1) 0 ≠ 0) :=
  ⟨by decide,
    (C7_grid storeA ⟨1, [1, 0, 0, 1]⟩ [[false, true], [true, false]]
      (by decide) (by decide) (by decide)).1,
    (C7_grid storeA ⟨1, [1, 0, 0, 1]⟩ [[false, true], [true, false]]
      (by decide) (by decide) (by decide)).2.2 0 1 (by decide) (by decide)⟩

/-- Claim C8: the bit-string accessor returns nil for a store that is
not encoded; for an encoded symbol it returns `height` groups of
`width` characters, each character being a module bit rendered as '1'
or '0', each group followed by a single ',' — including the trailing
separator after the last group (total length height*(width+1)) — in the
same top-row-first order as the grid (character (r,c) renders internal
buffer index (height-1-r)*width + c). -/
theorem C8_to_s :
    (∀ s : CSemacode, s.data = none → semacode_to_s s = none) ∧
    (∀ (s : CSemacode) (b : Buf Nat) (cs : List Char),
      s.data = some b →
      semacode_to_s s = some cs →
      cs.length = s.height.toNat * (s.width.toNat + 1) ∧
      (∀ r c, r < s.height.toNat → c < s.width.toNat →
        cs.getD (r * (s.width.toNat + 1) + c) ',' = '1' ∨
          cs.getD (r * (s.width.toNat + 1) + c) ',' = '0') ∧
      (∀ r, r < s.height.toNat →
        cs.getD (r * (s.width.toNat + 1) + s.width.toNat) '0' = ',') ∧
      (∀ r c, r < s.height.toNat → c < s.width.toNat →
        (cs.getD (r * (s.width.toNat + 1) + c) ',' = '1' ↔
          b.val.getD ((s.height.toNat - 1 - r) * s.width.toNat + c) 0 ≠ 0))) := by
  constructor
  · intro s hs
    simp [semacode_to_s, hs]
  · intro s b cs hb hcs
    have hcseq : cs = toSAux b.val s.width.toNat s.height.toNat := by
      simp [semacode_to_s, hb] at hcs
      exact hcs.symm
    subst hcseq
    refine ⟨toSAux_length _ _ _, fun r c hr hc => ?_, fun r hr => ?_,
      fun r c hr hc => ?_⟩
    · rw [toSAux_getD _ _ _ _ r c hr (by omega)]
      rw [List.getD_append _ _ _ _ (by rw [rowChars_length]; exact hc)]
      rw [rowChars_getD _ _ _ _ _ hc]
      by_cases hbyte :
          b.val.getD ((s.height.toNat - 1 - r) * s.width.toNat + c) 0 ≠ 0
      · left; rw [if_pos hbyte]
      · right; rw [if_neg hbyte]
    · rw [toSAux_getD _ _ _ _ r s.width.toNat hr (by omega)]
      rw [List.getD_append_right _ _ _ _ (by rw [rowChars_length])]
      rw [rowChars_length]
      simp
    · rw [toSAux_getD _ _ _ _ r c hr (by omega)]
      rw [List.getD_append _ _ _ _ (by rw [rowChars_length]; exact hc)]
      rw [rowChars_getD _ _ _ _ _ hc]
      by_cases hbyte :
          b.val.getD ((s.height.toNat - 1 - r) * s.width.toNat + c) 0 ≠ 0
      · rw [if_pos hbyte]
        exact ⟨fun _ => hbyte, fun _ => rfl⟩
      · rw [if_neg hbyte]
        exact ⟨fun h01 => absurd h01 (by decide), fun hcond => absurd hcond hbyte⟩

/-- Witness for claim C8: the empty store yields nil, and at the
concrete encoded store `storeA` the bit string is "01,10," — length
2*(2+1), cell (0,0) is '0', and the separator after row 0 sits at
position 0*(2+1)+2. -/
theorem C8_to_s_witness :
    semacode_to_s zeroSemacode = none ∧
    semacode_to_s storeA = some ['0', '1', ',', '1', '0', ','] ∧
    (['0', '1', ',', '1', '0', ','] : List Char).length =
      storeA.height.toNat * (storeA.width.toNat + 1) ∧
    (['0', '1', ',', '1', '0', ','] : List Char).getD
      (0 * (storeA.width.toNat + 1) + storeA.width.toNat) '0' = ',' :=
  ⟨C8_to_s.1 zeroSemacode rfl,
    by decide,
    (C8_to_s.2 storeA ⟨1, [1, 0, 0, 1]⟩ ['0', '1', ',', '1', '0', ',']
      (by decide) (by decide)).1,
    (C8_to_s.2 storeA ⟨1, [1, 0, 0, 1]⟩ ['0', '1', ',', '1', '0', ',']
      (by decide) (by decide)).2.2.1 0 (by decide)⟩

/-- Claim C9: for every encoded symbol, the bit-string and grid views
are consistent cell for cell — the character at row r, column c of the
bit string (position r*(width+1)+c) is '1' exactly when the grid cell
at row r, column c is true. -/
theorem C9_views_consistent (s : CSemacode) (g : List (List Bool))
    (cs : List Char) (r c : Nat)
    (hg : semacode_data s = some g) (hcs : semacode_to_s s = some cs)
    (hr : r < s.height.toNat) (hc : c < s.width.toNat) :
    (cs.getD (r * (s.width.toNat + 1) + c) ',' = '1' ↔
      (g.getD r []).getD c false = true) := by
  cases hb : s.data with
  | none => simp [semacode_data, hb] at hg
  | some b =>
    have hgeq : g = gridAux b.val s.width.toNat s.height.toNat := by
      simp [semacode_data, semacode_grid, hb, Except.toOption] at hg
      exact hg.symm
    have hcseq : cs = toSAux b.val s.width.toNat s.height.toNat := by
      simp [semacode_to_s, hb] at hcs
      exact hcs.symm
    subst hgeq
    subst hcseq
    rw [toSAux_getD _ _ _ _ r c hr (by omega)]
    rw [List.getD_append _ _ _ _ (by rw [rowChars_length]; exact hc)]
    rw [rowChars_getD _ _ _ _ _ hc]
    rw [gridAux_getD _ _ _ r hr, gridRow_getD _ _ _ c hc]
    rw [decide_eq_true_eq]
    by_cases hbyte :
        b.val.getD ((s.height.toNat - 1 - r) * s.width.toNat + c) 0 ≠ 0
    · rw [if_pos hbyte]
      exact ⟨fun _ => hbyte, fun _ => rfl⟩
    · rw [if_neg hbyte]
      exact ⟨fun h01 => absurd h01 (by decide), fun hcond => absurd hcond hbyte⟩

/-- Witness for claim C9 at the concrete encoded store `storeA`, cell
(0,1): character '1' at position 0*(2+1)+1 and grid cell true. -/
theorem C9_views_consistent_witness :
    (semacode_data storeA = some [[false, true], [true, false]] ∧
      semacode_to_s storeA = some ['0', '1', ',', '1', '0', ','] ∧
      0 < storeA.height.toNat ∧ 1 < storeA.width.toNat) ∧
    ((['0', '1', ',', '1', '0', ','] : List Char).getD
        (0 * (storeA.width.toNat + 1) + 1) ',' = '1' ↔
      (([[false, true], [true, false]] : List (List Bool)).getD 0 []).getD 1
        false = true) :=
  ⟨⟨by decide, by decide, by decide, by decide⟩,
    C9_views_consistent storeA [[false, true], [true, false]]
      ['0', '1', ',', '1', '0', ','] 0 1 (by decide) (by decide)
      (by decide) (by decide)⟩

/-- Claim C10: encoding a non-empty payload mutates the caller's payload
buffer in place — `strcat` concatenates a space onto the very byte
buffer passed in, so after `encode` (and likewise after `initialize`)
the caller's string buffer is its old contents extended by one trailing
space. -/
theorem C10_message_mutation (init : InitOracle) (ecc : EccOracle)
    (s : CSemacode) (msg : List Char) (hmsg : 1 ≤ msg.length) :
    (semacode_encode init ecc s msg).message = msg ++ [' '] ∧
    (semacode_init init ecc s msg).message = msg ++ [' '] := by
  have h1 : ¬ ((msg.length : Int) < 1) := by
    simp only [not_lt]
    exact_mod_cast hmsg
  cases hecc : ecc (init (msg ++ [' '])).1 (init (msg ++ [' '])).2
      ((msg.length : Int) + 1) (msg ++ [' ']) with
  | none =>
    constructor <;>
      simp [semacode_encode, semacode_init, encode_string, h1, hecc]
  | some r =>
    constructor <;>
      simp [semacode_encode, semacode_init, encode_string, h1, hecc]

/-- Witness for claim C10 at a concrete one-character payload. -/
theorem C10_message_mutation_witness :
    1 ≤ (['a'] : List Char).length ∧
    (semacode_encode cInit okEcc zeroSemacode ['a']).message =
      ['a'] ++ [' '] ∧
    (semacode_init cInit okEcc zeroSemacode ['a']).message =
      ['a'] ++ [' '] :=
  ⟨by decide,
    (C10_message_mutation cInit okEcc zeroSemacode ['a'] (by decide)).1,
    (C10_message_mutation cInit okEcc zeroSemacode ['a'] (by decide)).2⟩

end Semacode
